import Mathlib

/-!
Shallow embedding of the MakerPsm pricing / state-synchronization module
(src/src/dex/maker-psm/maker-psm.ts) and proofs of the specification claims.

TypeScript bigint arithmetic is embedded as Lean Int: bigint is a signed
arbitrary-precision integer whose division truncates toward zero, which is
Int.tdiv.  Division by zero throws in TypeScript; the total embedding below
follows Lean's 0-convention, and a separate Option-valued variant
(computePricesChecked) makes every division fallible in order to reason
about DivisionByZero faults.
-/

/-- SwapSide from src/src/constants (only the two variants used here). -/
inductive SwapSide where
  | SELL : SwapSide
  | BUY : SwapSide
deriving DecidableEq

/-- WAD = BigInt(10 ** 18) (maker-psm.ts line 27). -/
def WAD : Int := 10 ^ 18

/-- BN0 = BigInt(0) (line 28). -/
def BN0 : Int := 0

/-- BN1 = BigInt(1) (line 29). -/
def BN1 : Int := 1

/-- BN1E18 = BigInt(1e18) (line 30); the float 1e18 is exactly 10^18. -/
def BN1E18 : Int := 10 ^ 18

/-- Division as TypeScript bigint performs it: truncation toward zero. -/
def bdiv (a b : Int) : Int := Int.tdiv a b

/-- ceilDiv = (a, b) => (a + b - BN1) / b (line 33). -/
def ceilDiv (a b : Int) : Int := bdiv (a + b - BN1) b

/-- Modelled from the spec: PoolState (declared in src/src/dex/maker-psm/types.ts,
which is not under src/).  StateSnapshot of §3: five integers, named as the
code's field accesses name them: tin (sellFeeRate), tout (buyFeeRate),
Art (assetDebt), line (debtCeiling), rate (debtScaleRate). -/
structure PoolState where
  tin : Int
  tout : Int
  Art : Int
  line : Int
  rate : Int
deriving DecidableEq

/-- sellGemCheck from computePrices (line 293): the hypothetical post-trade
debt must stay within the scaled debt ceiling. -/
def sellGemCheck (poolState : PoolState) (dart : Int) : Bool :=
  decide ((dart + poolState.Art) * poolState.rate ≤ poolState.line)

/-- buyGemCheck from computePrices (line 295): the pool cannot release more
gem than its recorded debt. -/
def buyGemCheck (poolState : PoolState) (dart : Int) : Bool :=
  decide (dart ≤ poolState.Art)

/-- Body of the closure computePrices maps over the requested amounts
(lines 297-318), embedded branch for branch.  The early returns of the
source become if-then-else with the shared fall-through return BN0. -/
def priceBody (isSrcDai : Bool) (to18ConversionFactor : Int) (side : SwapSide)
    (poolState : PoolState) (a : Int) : Int :=
  match side with
    | SwapSide.SELL =>
      if isSrcDai then
        let gemAmt18 := bdiv (a * WAD) (WAD + poolState.tout)
        if buyGemCheck poolState gemAmt18 then bdiv gemAmt18 to18ConversionFactor else BN0
      else
        let gemAmt18 := to18ConversionFactor * a
        if sellGemCheck poolState gemAmt18 then
          gemAmt18 - bdiv (gemAmt18 * poolState.tin) WAD
        else BN0
    | SwapSide.BUY =>
      if isSrcDai then
        let gemAmt18 := to18ConversionFactor * a
        if buyGemCheck poolState gemAmt18 then
          gemAmt18 + bdiv (gemAmt18 * poolState.tout) WAD
        else BN0
      else
        let gemAmt18 := bdiv (a * WAD) (WAD - poolState.tin)
        if sellGemCheck poolState gemAmt18 then bdiv gemAmt18 to18ConversionFactor else BN0

/-- MakerPsm.computePrices (lines 286-319): amounts.map over the closure
above (named priceBody here). -/
def computePrices (isSrcDai : Bool) (to18ConversionFactor : Int) (side : SwapSide)
    (amounts : List Int) (poolState : PoolState) : List Int :=
  amounts.map (priceBody isSrcDai to18ConversionFactor side poolState)

/-- The per-amount output of computePrices: the claims of §8 speak of the
pricing function pointwise in the requested amount. -/
def priceOne (isSrcDai : Bool) (to18ConversionFactor : Int) (side : SwapSide)
    (poolState : PoolState) (a : Int) : Int :=
  (computePrices isSrcDai to18ConversionFactor side [a] poolState).headI

/-- Feasibility of a requested amount: the check the corresponding branch of
computePrices performs on its derived 18-decimal gem amount. -/
def feasibleAmt (isSrcDai : Bool) (to18ConversionFactor : Int) (side : SwapSide)
    (poolState : PoolState) (a : Int) : Bool :=
  match side, isSrcDai with
  | SwapSide.SELL, true => buyGemCheck poolState (bdiv (a * WAD) (WAD + poolState.tout))
  | SwapSide.SELL, false => sellGemCheck poolState (to18ConversionFactor * a)
  | SwapSide.BUY, true => buyGemCheck poolState (to18ConversionFactor * a)
  | SwapSide.BUY, false => sellGemCheck poolState (bdiv (a * WAD) (WAD - poolState.tin))

/-- Modelled from the spec: MakerPsmData (declared in types.ts, absent from
src/); only the fields maker-psm.ts reads.  toll carries the fee rate the
quote recorded, gemDecimals the asset's native decimal precision. -/
structure MakerPsmData where
  toll : Int
  gemDecimals : Nat
deriving DecidableEq

/-- MakerPsm.getPsmParams (lines 379-412).  String amounts are embedded as
the integers they denote; the isSrcDai comparison of srcToken against the
dai address is taken as the Boolean it produces.  BigInt(10)**BigInt(18-d)
is 10^(18-d); the embedding uses Nat subtraction in the exponent, which
agrees with the source for gemDecimals ≤ 18. -/
def getPsmParams (isSrcDai : Bool) (srcAmount destAmount : Int)
    (data : MakerPsmData) (side : SwapSide) : Bool × Int :=
  let to18ConversionFactor : Int := 10 ^ (18 - data.gemDecimals)
  match side with
  | SwapSide.SELL =>
    if isSrcDai then
      let gemAmt18 := bdiv (srcAmount * WAD) (WAD + data.toll)
      (false, bdiv gemAmt18 to18ConversionFactor)
    else
      (true, srcAmount)
  | SwapSide.BUY =>
    if isSrcDai then
      (false, destAmount)
    else
      (true, ceilDiv (destAmount * WAD) ((WAD - data.toll) * to18ConversionFactor))

/-- The toll recorded into a quote's data by getPricesVolume (lines 347-351):
tout when (side = SELL and the source is dai) or (side = BUY and the source
is the gem), tin otherwise. -/
def tollForQuote (side : SwapSide) (isSrcDai : Bool) (poolState : PoolState) : Int :=
  if (side = SwapSide.SELL ∧ isSrcDai = true) ∨ (side = SwapSide.BUY ∧ isSrcDai = false) then
    poolState.tout
  else
    poolState.tin

/-- minLiq from MakerPsm.getTopPoolsForToken (lines 490-500).  The source's
parseInt((x).toString()) on the bigint quotient is embedded as the exact
integer it denotes. -/
def minLiq (poolState : PoolState) : Int :=
  let buyLimit := poolState.Art
  let sellLimit := bdiv (poolState.line - poolState.Art * poolState.rate) poolState.rate
  2 * bdiv (if buyLimit > sellLimit then sellLimit else buyLimit) BN1E18

/-- Claim C6's liquidity formula, written from the spec's words
(§6 Liquidity-reporting interface): 2 * min(buyLimit, sellLimit) / 1e18,
rounded down to an integer unit, the rounding applied to the whole
expression.  Kept separate from minLiq for comparison. -/
def minLiqClaim (poolState : PoolState) : Int :=
  let buyLimit := poolState.Art
  let sellLimit := bdiv (poolState.line - poolState.Art * poolState.rate) poolState.rate
  bdiv (2 * min buyLimit sellLimit) BN1E18

/-- Modelled from the spec: the decoded log record delivered by the external
ABI decoder (psmInterface.parseLog, external per §1).  name selects the
handler; what and data are the File event's arguments; value is the
SellGem / BuyGem amount. -/
structure DecodedEvent where
  name : String
  what : String
  data : Int
  value : Int
deriving DecidableEq

/-- bytes32Tout constant (lines 93-94). -/
def bytes32Tout : String :=
  "0x746f757400000000000000000000000000000000000000000000000000000000"

/-- bytes32Tin constant (lines 95-96). -/
def bytes32Tin : String :=
  "0x74696e0000000000000000000000000000000000000000000000000000000000"

/-- MakerPsmEventPool.handleFile (lines 119-126), with value semantics in
place of the source's in-place mutation of the returned snapshot. -/
def handleFile (event : DecodedEvent) (pool : PoolState) : PoolState :=
  if event.what = bytes32Tin then
    { pool with tin := event.data }
  else if event.what = bytes32Tout then
    { pool with tout := event.data }
  else
    pool

/-- MakerPsmEventPool.handleSellGem (lines 128-131). -/
def handleSellGem (to18ConversionFactor : Int) (event : DecodedEvent)
    (pool : PoolState) : PoolState :=
  { pool with Art := pool.Art + event.value * to18ConversionFactor }

/-- MakerPsmEventPool.handleBuyGem (lines 133-136). -/
def handleBuyGem (to18ConversionFactor : Int) (event : DecodedEvent)
    (pool : PoolState) : PoolState :=
  { pool with Art := pool.Art - event.value * to18ConversionFactor }

/-- The handler table installed by the MakerPsmEventPool constructor
(lines 114-116), keyed by decoded event name. -/
def handlers (to18ConversionFactor : Int) :
    String → Option (DecodedEvent → PoolState → PoolState)
  | "File" => some handleFile
  | "SellGem" => some (handleSellGem to18ConversionFactor)
  | "BuyGem" => some (handleBuyGem to18ConversionFactor)
  | _ => none

/-- MakerPsmEventPool.processLog (lines 151-168).  The source's try/catch
around this.logDecoder is embedded by letting the decoder return an Option:
none is a decode failure (a thrown exception), in which case processLog
returns null (none here) and no snapshot is produced.  A successfully
decoded event with no handler returns the input state unchanged. -/
def processLog (Log : Type) (logDecoder : Log → Option DecodedEvent)
    (to18ConversionFactor : Int) (state : PoolState) (log : Log) : Option PoolState :=
  match logDecoder log with
  | none => none
  | some event =>
    match handlers to18ConversionFactor event.name with
    | some h => some (h event state)
    | none => some state

/-- Fallible division: none exactly when TypeScript bigint division would
throw a DivisionByZero RangeError. -/
def divChecked (a b : Int) : Option Int :=
  if b = 0 then none else some (bdiv a b)

/-- Option-valued traversal used by computePricesChecked: a fault at any
requested amount faults the whole computation, as a thrown exception
escapes the source's amounts.map. -/
def mapOption (f : Int → Option Int) : List Int → Option (List Int)
  | [] => some []
  | a :: rest =>
    match f a with
    | none => none
    | some b =>
      match mapOption f rest with
      | none => none
      | some bs => some (b :: bs)

/-- Fallible counterpart of priceBody: every division of the branch may
fault. -/
def priceBodyChecked (isSrcDai : Bool) (to18ConversionFactor : Int) (side : SwapSide)
    (poolState : PoolState) (a : Int) : Option Int :=
  match side with
    | SwapSide.SELL =>
      if isSrcDai then
        (divChecked (a * WAD) (WAD + poolState.tout)).bind fun gemAmt18 =>
          if buyGemCheck poolState gemAmt18 then divChecked gemAmt18 to18ConversionFactor
          else some BN0
      else
        let gemAmt18 := to18ConversionFactor * a
        if sellGemCheck poolState gemAmt18 then
          (divChecked (gemAmt18 * poolState.tin) WAD).map fun q => gemAmt18 - q
        else some BN0
    | SwapSide.BUY =>
      if isSrcDai then
        let gemAmt18 := to18ConversionFactor * a
        if buyGemCheck poolState gemAmt18 then
          (divChecked (gemAmt18 * poolState.tout) WAD).map fun q => gemAmt18 + q
        else some BN0
      else
        (divChecked (a * WAD) (WAD - poolState.tin)).bind fun gemAmt18 =>
          if sellGemCheck poolState gemAmt18 then divChecked gemAmt18 to18ConversionFactor
          else some BN0

/-- MakerPsm.computePrices again, with every division fallible, to settle
which snapshots can make the computation raise DivisionByZero. -/
def computePricesChecked (isSrcDai : Bool) (to18ConversionFactor : Int) (side : SwapSide)
    (amounts : List Int) (poolState : PoolState) : Option (List Int) :=
  mapOption (priceBodyChecked isSrcDai to18ConversionFactor side poolState) amounts

/-- Modelled from the spec: the per-pool synchronizer state seen by
MakerPsm.getPoolState (lines 275-284).  StatefulEventSubscriber (not under
src/) holds the snapshot store; §4.2 gives its contract.  cached is the
store's answer for the requested (pool, block); reads counts on-chain
regenerations (generateState calls). -/
structure SyncState where
  cached : Option PoolState
  reads : Nat
deriving DecidableEq

/-- MakerPsm.getPoolState (lines 275-284) as a state transformer over the
synchronizer state: return the stored snapshot if the event system has one,
otherwise read the chain (one read), store and return the result.  chain is
the snapshot an on-chain regeneration would observe. -/
def getPoolState (chain : PoolState) (st : SyncState) : PoolState × SyncState :=
  match st.cached with
  | some s => (s, st)
  | none => (chain, { cached := some chain, reads := st.reads + 1 })

/-- Phase of one caller executing getPoolState: ready (about to consult the
store), regen (suspended at the await of generateState), or done. -/
inductive CallerPhase where
  | ready : CallerPhase
  | regen : CallerPhase
  | done : PoolState → CallerPhase
deriving DecidableEq

/-- One atomic step of a caller inside getPoolState.  The synchronous prefix
up to the await is one step (consult the store; miss means the caller is
now awaiting generateState); resuming from the await is the second step
(the chain read completes, setState runs). -/
def stepCaller (chain : PoolState) (ph : CallerPhase) (st : SyncState) :
    CallerPhase × SyncState :=
  match ph with
  | CallerPhase.ready =>
    match st.cached with
    | some s => (CallerPhase.done s, st)
    | none => (CallerPhase.regen, st)
  | CallerPhase.regen =>
    (CallerPhase.done chain, { cached := some chain, reads := st.reads + 1 })
  | CallerPhase.done s => (CallerPhase.done s, st)

/-- Interleaved execution of two callers of getPoolState for the same
(pool, block): the schedule says which caller takes the next step. -/
def runSched (chain : PoolState) :
    List Bool → CallerPhase × CallerPhase × SyncState → CallerPhase × CallerPhase × SyncState
  | [], cfg => cfg
  | true :: rest, (p1, p2, st) =>
    let r := stepCaller chain p1 st
    runSched chain rest (r.1, p2, r.2)
  | false :: rest, (p1, p2, st) =>
    let r := stepCaller chain p2 st
    runSched chain rest (p1, r.1, r.2)

/-- C1 (counterexample): at sellFeeRate = WAD - 3 and requested stable
output 1, the Asset→Stable buy-side computation returns the truncated
quotient 333333333333333333, while ceilDiv of the same operands is
333333333333333334 — computePrices does not use ceiling division. -/
theorem computePrices_gemBuy_not_ceilDiv :
    computePrices false 1 SwapSide.BUY [1] ⟨WAD - 3, 0, 0, 10 ^ 18, 1⟩ =
      [333333333333333333] ∧
    ceilDiv (1 * WAD) (WAD - (WAD - 3)) = 333333333333333334 ∧
    (333333333333333333 : Int) ≠ 333333333333333334 := by decide

/-- C1 (amended): the Asset→Stable buy-side computation computes the
required asset input with truncating division,
assetIn18 = (stableOut18 * W) / (W - sellFeeRate), returns it rescaled to
native decimals, and the result is feasible — anything else maps to the
zero sentinel — iff (assetIn18 + assetDebt) * debtScaleRate ≤ debtCeiling,
the feasibility test being applied to the truncated quotient. -/
theorem computePrices_gemBuy_floor (poolState : PoolState) (to18ConversionFactor : Int)
    (amounts : List Int) :
    computePrices false to18ConversionFactor SwapSide.BUY amounts poolState =
      amounts.map fun a =>
        if (bdiv (a * WAD) (WAD - poolState.tin) + poolState.Art) * poolState.rate ≤
            poolState.line then
          bdiv (bdiv (a * WAD) (WAD - poolState.tin)) to18ConversionFactor
        else 0 := by
  unfold computePrices
  congr 1
  funext a
  by_cases h :
      (bdiv (a * WAD) (WAD - poolState.tin) + poolState.Art) * poolState.rate ≤ poolState.line
  · simp [priceBody, sellGemCheck, BN0, h]
  · simp [priceBody, sellGemCheck, BN0, h]

/-- C2 (confirmed): the Stable→Asset sell-side computation returns
assetOut18 = amountIn18 * W / (W + buyFeeRate) with truncating division,
rescaled to the asset's native decimals, whenever assetOut18 ≤ assetDebt,
and the zero sentinel (a value, not an exception) for every amount with
assetOut18 > assetDebt. -/
theorem computePrices_daiSell_spec (poolState : PoolState) (to18ConversionFactor : Int)
    (amounts : List Int) :
    computePrices true to18ConversionFactor SwapSide.SELL amounts poolState =
      amounts.map fun a =>
        if bdiv (a * WAD) (WAD + poolState.tout) ≤ poolState.Art then
          bdiv (bdiv (a * WAD) (WAD + poolState.tout)) to18ConversionFactor
        else 0 := by
  unfold computePrices
  congr 1
  funext a
  by_cases h : bdiv (a * WAD) (WAD + poolState.tout) ≤ poolState.Art
  · simp [priceBody, buyGemCheck, BN0, h]
  · simp [priceBody, buyGemCheck, BN0, h]

/-- C3 (confirmed): the Asset→Stable sell-side computation returns
stableOut18 = assetIn18 - assetIn18 * sellFeeRate / W exactly when
(assetIn18 + assetDebt) * debtScaleRate ≤ debtCeiling and the zero sentinel
otherwise, where assetIn18 is the 18-decimal input; and when
assetDebt * debtScaleRate = debtCeiling exactly (positive debtScaleRate,
positive conversion factor), every positive input amount is infeasible. -/
theorem computePrices_gemSell_spec :
    (∀ (poolState : PoolState) (to18ConversionFactor : Int) (amounts : List Int),
        computePrices false to18ConversionFactor SwapSide.SELL amounts poolState =
          amounts.map fun a =>
            if (to18ConversionFactor * a + poolState.Art) * poolState.rate ≤ poolState.line then
              to18ConversionFactor * a - bdiv (to18ConversionFactor * a * poolState.tin) WAD
            else 0) ∧
    (∀ (poolState : PoolState) (to18ConversionFactor a : Int),
        0 < poolState.rate → 0 < to18ConversionFactor →
        poolState.Art * poolState.rate = poolState.line → 0 < a →
        computePrices false to18ConversionFactor SwapSide.SELL [a] poolState = [0]) := by
  constructor
  · intro poolState cf amounts
    unfold computePrices
    congr 1
    funext a
    by_cases h : (cf * a + poolState.Art) * poolState.rate ≤ poolState.line
    · simp [priceBody, sellGemCheck, BN0, h]
    · simp [priceBody, sellGemCheck, BN0, h]
  · intro poolState cf a hrate hcf hline ha
    have hg : 0 < cf * a := mul_pos hcf ha
    have hgr : 0 < cf * a * poolState.rate := mul_pos hg hrate
    have hchk : ¬((cf * a + poolState.Art) * poolState.rate ≤ poolState.line) := by
      have : poolState.line < (cf * a + poolState.Art) * poolState.rate := by nlinarith
      exact not_le.mpr this
    simp [computePrices, priceBody, sellGemCheck, BN0, hchk]

/-- C3 witness: a concrete saturated pool — debt 5, ceiling 5, rate 1 —
rejects a positive sell of 1 with the zero sentinel. -/
theorem computePrices_gemSell_spec_witness :
    0 < (1 : Int) ∧ (5 : Int) * 1 = 5 ∧
    computePrices false 1 SwapSide.SELL [1] ⟨0, 0, 5, 5, 1⟩ = [0] :=
  ⟨by decide, by decide,
    computePrices_gemSell_spec.2 ⟨0, 0, 5, 5, 1⟩ 1 1 (by decide) (by decide) (by decide)
      (by decide)⟩

/-- C5 (code bug): with sellFeeRate tin = 0 and buyFeeRate tout = 0.5e18,
pricing a BUY of 10 stable units from the asset side requires 10 asset
units (computePrices uses tin), but getPsmParams applied to the quote's own
recorded toll — which getPricesVolume sets to tout for this side — encodes
a sellGem of 20 asset units: the round-trip error is 10 native units, not
at most one. -/
theorem getPsmParams_toll_mismatch :
    computePrices false 1 SwapSide.BUY [10] ⟨0, 5 * 10 ^ 17, 0, 10 ^ 37, 1⟩ = [10] ∧
    getPsmParams false 0 10
        ⟨tollForQuote SwapSide.BUY false ⟨0, 5 * 10 ^ 17, 0, 10 ^ 37, 1⟩, 18⟩ SwapSide.BUY =
      (true, 20) ∧
    ¬((20 : Int) ≤ 10 + 1) := by decide

/-- C6 (counterexample): at assetDebt = 1.5e18 (the binding limit) the code
reports liquidity 2 (doubling the floored quotient), while the claim's
formula — 2 * min(buyLimit, sellLimit) / 1e18 rounded down — gives 3. -/
theorem minLiq_counterexample :
    minLiq ⟨0, 0, 15 * 10 ^ 17, 10 ^ 40, 10 ^ 18⟩ = 2 ∧
    minLiqClaim ⟨0, 0, 15 * 10 ^ 17, 10 ^ 40, 10 ^ 18⟩ = 3 ∧ (2 : Int) ≠ 3 := by decide

/-- C6 (amended): the reported liquidity equals twice the floored quotient
min(buyLimitAsset18, sellLimitAsset18) / 1e18 — the doubling is applied
after the rounding, with buyLimitAsset18 = assetDebt and
sellLimitAsset18 = (debtCeiling - assetDebt * debtScaleRate) / debtScaleRate. -/
theorem minLiq_doubles_after_floor (poolState : PoolState) :
    minLiq poolState =
      2 * bdiv (min poolState.Art
          (bdiv (poolState.line - poolState.Art * poolState.rate) poolState.rate)) BN1E18 := by
  simp only [minLiq]
  rcases le_or_lt poolState.Art
      (bdiv (poolState.line - poolState.Art * poolState.rate) poolState.rate) with h | h
  · rw [if_neg (not_lt.mpr h), min_eq_left h]
  · rw [if_pos h, min_eq_right h.le]

/-- C7 (counterexample): two concurrent callers of getPoolState for the
same (pool, block), both of whose store lookups happen before either
regeneration completes, perform two on-chain reads — there is no in-flight
de-duplication memo. -/
theorem runSched_two_reads :
    (runSched ⟨1, 2, 3, 4, 5⟩ [true, false, true, false]
        (CallerPhase.ready, CallerPhase.ready, ⟨none, 0⟩)).2.2.reads = 2 ∧
    ¬((runSched ⟨1, 2, 3, 4, 5⟩ [true, false, true, false]
        (CallerPhase.ready, CallerPhase.ready, ⟨none, 0⟩)).2.2.reads ≤ 1) := by decide

/-- C7 (amended): sequentially, calling getPoolState twice for the same
pool and block with no intervening events returns identical snapshots,
performs at most one on-chain read in total, and the second call leaves the
synchronizer state untouched. -/
theorem getPoolState_sequential_idempotent (chain : PoolState) (st : SyncState) :
    (getPoolState chain (getPoolState chain st).2).1 = (getPoolState chain st).1 ∧
    (getPoolState chain (getPoolState chain st).2).2.reads ≤ st.reads + 1 ∧
    (getPoolState chain (getPoolState chain st).2).2 = (getPoolState chain st).2 := by
  rcases st with ⟨cached, reads⟩
  cases cached <;> simp [getPoolState]

/-- C8 (confirmed): a log whose decoding throws makes processLog return
null (none) — no snapshot is produced — while a log that decodes to an
event kind with no installed handler returns the input snapshot unchanged. -/
theorem processLog_decode_vs_unrecognized :
    (∀ (Log : Type) (logDecoder : Log → Option DecodedEvent) (to18ConversionFactor : Int)
        (state : PoolState) (log : Log),
        logDecoder log = none →
        processLog Log logDecoder to18ConversionFactor state log = none) ∧
    (∀ (Log : Type) (logDecoder : Log → Option DecodedEvent) (to18ConversionFactor : Int)
        (state : PoolState) (log : Log) (event : DecodedEvent),
        logDecoder log = some event →
        handlers to18ConversionFactor event.name = none →
        processLog Log logDecoder to18ConversionFactor state log = some state) := by
  constructor
  · intro Log logDecoder cf state log h
    simp [processLog, h]
  · intro Log logDecoder cf state log event h1 h2
    simp [processLog, h1, h2]

/-- C8 witness: a decoder that always fails makes processLog return none,
and an event named Frob — decoded but unhandled — is a no-op. -/
theorem processLog_decode_vs_unrecognized_witness :
    processLog Unit (fun _ => none) 1 ⟨0, 0, 0, 0, 0⟩ () = none ∧
    processLog Unit (fun _ => some ⟨"Frob", "", 0, 0⟩) 1 ⟨0, 0, 0, 0, 0⟩ () =
      some ⟨0, 0, 0, 0, 0⟩ :=
  ⟨processLog_decode_vs_unrecognized.1 Unit (fun _ => none) 1 ⟨0, 0, 0, 0, 0⟩ () rfl,
   processLog_decode_vs_unrecognized.2 Unit (fun _ => some ⟨"Frob", "", 0, 0⟩) 1
     ⟨0, 0, 0, 0, 0⟩ () ⟨"Frob", "", 0, 0⟩ rfl rfl⟩

/-- C9 (confirmed): a File event with what = tin sets the snapshot's
sellFeeRate to the event's value verbatim and leaves the other four fields
bit-identical. -/
theorem handleFile_sellFee_frame (pool : PoolState) (v amt : Int) (nm : String) :
    (handleFile ⟨nm, bytes32Tin, v, amt⟩ pool).tin = v ∧
    (handleFile ⟨nm, bytes32Tin, v, amt⟩ pool).tout = pool.tout ∧
    (handleFile ⟨nm, bytes32Tin, v, amt⟩ pool).Art = pool.Art ∧
    (handleFile ⟨nm, bytes32Tin, v, amt⟩ pool).line = pool.line ∧
    (handleFile ⟨nm, bytes32Tin, v, amt⟩ pool).rate = pool.rate := by
  refine ⟨?_, ?_, ?_, ?_, ?_⟩ <;> simp [handleFile]

/-- Positivity of the Wad unit. -/
theorem WAD_pos : (0 : Int) < WAD := by decide

/-- The per-amount output of computePrices is the mapped closure's value. -/
theorem priceOne_eq (isSrcDai : Bool) (to18ConversionFactor : Int) (side : SwapSide)
    (poolState : PoolState) (a : Int) :
    priceOne isSrcDai to18ConversionFactor side poolState a =
      priceBody isSrcDai to18ConversionFactor side poolState a := rfl

/-- Monotonicity of the double truncating division in the numerator, for
nonnegative numerators and positive divisors. -/
theorem bdiv_bdiv_mono (x y d c : Int) (hx : 0 ≤ x) (hxy : x ≤ y) (hd : 0 < d) (hc : 0 < c) :
    bdiv (bdiv x d) c ≤ bdiv (bdiv y d) c := by
  have hy : 0 ≤ y := le_trans hx hxy
  rw [bdiv, bdiv, bdiv, bdiv, Int.tdiv_eq_ediv hx hd.le, Int.tdiv_eq_ediv hy hd.le,
      Int.tdiv_eq_ediv (Int.ediv_nonneg hx hd.le) hc.le,
      Int.tdiv_eq_ediv (Int.ediv_nonneg hy hd.le) hc.le]
  exact Int.ediv_le_ediv hc (Int.ediv_le_ediv hd hxy)

/-- Monotonicity of the output-after-fee map g ↦ g - g*t/w for fee rates
t between 0 and w: raising the gross amount never lowers the net amount. -/
theorem sub_fee_mono (t g g' w : Int) (hw : 0 < w) (ht0 : 0 ≤ t) (ht : t ≤ w)
    (hg0 : 0 ≤ g) (hg : g ≤ g') :
    g - bdiv (g * t) w ≤ g' - bdiv (g' * t) w := by
  have hg'0 : 0 ≤ g' := le_trans hg0 hg
  have h1 : 0 ≤ g * t := mul_nonneg hg0 ht0
  have h2 : 0 ≤ g' * t := mul_nonneg hg'0 ht0
  rw [bdiv, bdiv, Int.tdiv_eq_ediv h1 hw.le, Int.tdiv_eq_ediv h2 hw.le]
  have hq := Int.ediv_add_emod (g * t) w
  have hr0 : 0 ≤ (g * t) % w := Int.emod_nonneg _ (ne_of_gt hw)
  have hrw : (g * t) % w < w := Int.emod_lt_of_pos _ hw
  have key : g' * t / w < g * t / w + (g' - g) + 1 := by
    rw [Int.ediv_lt_iff_lt_mul hw]
    have hmul : (g' - g) * t ≤ (g' - g) * w := mul_le_mul_of_nonneg_left ht (by linarith)
    nlinarith [hq]
  have key2 := Int.lt_add_one_iff.mp key
  linarith

/-- Monotonicity of the input-plus-fee map g ↦ g + g*t/w for nonnegative
fee rates. -/
theorem add_fee_mono (t g g' w : Int) (hw : 0 < w) (ht0 : 0 ≤ t)
    (hg0 : 0 ≤ g) (hg : g ≤ g') :
    g + bdiv (g * t) w ≤ g' + bdiv (g' * t) w := by
  have h1 : 0 ≤ g * t := mul_nonneg hg0 ht0
  have h2 : 0 ≤ g' * t := mul_nonneg (le_trans hg0 hg) ht0
  rw [bdiv, bdiv, Int.tdiv_eq_ediv h1 hw.le, Int.tdiv_eq_ediv h2 hw.le]
  exact add_le_add hg (Int.ediv_le_ediv hw (mul_le_mul_of_nonneg_right hg ht0))

/-- C4 (confirmed): on a valid snapshot — fee rates nonnegative,
sellFeeRate below 100%, positive conversion factor — the per-amount output
of computePrices is monotone non-decreasing over the feasible region, for
every direction and side; and every amount failing its branch's debt check
maps to the zero sentinel. -/
theorem computePrices_monotone_and_sentinel :
    (∀ (poolState : PoolState) (to18ConversionFactor a b : Int) (isSrcDai : Bool)
        (side : SwapSide),
        0 ≤ poolState.tin → poolState.tin < WAD → 0 ≤ poolState.tout →
        0 < to18ConversionFactor → 0 ≤ a → a ≤ b →
        feasibleAmt isSrcDai to18ConversionFactor side poolState a = true →
        feasibleAmt isSrcDai to18ConversionFactor side poolState b = true →
        priceOne isSrcDai to18ConversionFactor side poolState a ≤
          priceOne isSrcDai to18ConversionFactor side poolState b) ∧
    (∀ (poolState : PoolState) (to18ConversionFactor a : Int) (isSrcDai : Bool)
        (side : SwapSide),
        feasibleAmt isSrcDai to18ConversionFactor side poolState a = false →
        priceOne isSrcDai to18ConversionFactor side poolState a = 0) := by
  constructor
  · intro poolState cf a b isSrcDai side htin0 htinW htout hcf ha hab hfa hfb
    have hWp : (0 : Int) < WAD := WAD_pos
    cases side <;> cases isSrcDai <;> simp only [feasibleAmt] at hfa hfb <;>
      rw [priceOne_eq, priceOne_eq] <;> simp only [priceBody, hfa, hfb, if_true]
    · exact sub_fee_mono poolState.tin (cf * a) (cf * b) WAD hWp htin0 htinW.le
        (mul_nonneg hcf.le ha) (mul_le_mul_of_nonneg_left hab hcf.le)
    · exact bdiv_bdiv_mono _ _ _ _ (mul_nonneg ha hWp.le)
        (mul_le_mul_of_nonneg_right hab hWp.le) (by linarith) hcf
    · exact bdiv_bdiv_mono _ _ _ _ (mul_nonneg ha hWp.le)
        (mul_le_mul_of_nonneg_right hab hWp.le) (by linarith) hcf
    · exact add_fee_mono poolState.tout (cf * a) (cf * b) WAD hWp htout
        (mul_nonneg hcf.le ha) (mul_le_mul_of_nonneg_left hab hcf.le)
  · intro poolState cf a isSrcDai side h
    cases side <;> cases isSrcDai <;> simp only [feasibleAmt] at h <;>
      rw [priceOne_eq] <;> simp [priceBody, h, BN0]

/-- C4 witness: at a snapshot with tiny fees, debt 1e19, ceiling 1e40 and
rate 1e18, raising the requested amount from 1 to 2 never lowers the
answer in any of the four branches; and a saturated pool answers zero. -/
theorem computePrices_monotone_and_sentinel_witness :
    feasibleAmt true (10 ^ 12) SwapSide.SELL ⟨1, 1, 10 ^ 19, 10 ^ 40, 10 ^ 18⟩ 1 = true ∧
    priceOne true (10 ^ 12) SwapSide.SELL ⟨1, 1, 10 ^ 19, 10 ^ 40, 10 ^ 18⟩ 1 ≤
      priceOne true (10 ^ 12) SwapSide.SELL ⟨1, 1, 10 ^ 19, 10 ^ 40, 10 ^ 18⟩ 2 ∧
    priceOne false (10 ^ 12) SwapSide.SELL ⟨1, 1, 10 ^ 19, 10 ^ 40, 10 ^ 18⟩ 1 ≤
      priceOne false (10 ^ 12) SwapSide.SELL ⟨1, 1, 10 ^ 19, 10 ^ 40, 10 ^ 18⟩ 2 ∧
    priceOne true (10 ^ 12) SwapSide.BUY ⟨1, 1, 10 ^ 19, 10 ^ 40, 10 ^ 18⟩ 1 ≤
      priceOne true (10 ^ 12) SwapSide.BUY ⟨1, 1, 10 ^ 19, 10 ^ 40, 10 ^ 18⟩ 2 ∧
    priceOne false (10 ^ 12) SwapSide.BUY ⟨1, 1, 10 ^ 19, 10 ^ 40, 10 ^ 18⟩ 1 ≤
      priceOne false (10 ^ 12) SwapSide.BUY ⟨1, 1, 10 ^ 19, 10 ^ 40, 10 ^ 18⟩ 2 ∧
    priceOne false 1 SwapSide.SELL ⟨0, 0, 5, 5, 1⟩ 1 = 0 :=
  ⟨by decide,
   computePrices_monotone_and_sentinel.1 ⟨1, 1, 10 ^ 19, 10 ^ 40, 10 ^ 18⟩ (10 ^ 12) 1 2
     true SwapSide.SELL (by decide) (by decide) (by decide) (by decide) (by decide)
     (by decide) (by decide) (by decide),
   computePrices_monotone_and_sentinel.1 ⟨1, 1, 10 ^ 19, 10 ^ 40, 10 ^ 18⟩ (10 ^ 12) 1 2
     false SwapSide.SELL (by decide) (by decide) (by decide) (by decide) (by decide)
     (by decide) (by decide) (by decide),
   computePrices_monotone_and_sentinel.1 ⟨1, 1, 10 ^ 19, 10 ^ 40, 10 ^ 18⟩ (10 ^ 12) 1 2
     true SwapSide.BUY (by decide) (by decide) (by decide) (by decide) (by decide)
     (by decide) (by decide) (by decide),
   computePrices_monotone_and_sentinel.1 ⟨1, 1, 10 ^ 19, 10 ^ 40, 10 ^ 18⟩ (10 ^ 12) 1 2
     false SwapSide.BUY (by decide) (by decide) (by decide) (by decide) (by decide)
     (by decide) (by decide) (by decide),
   computePrices_monotone_and_sentinel.2 ⟨0, 0, 5, 5, 1⟩ 1 1 false SwapSide.SELL (by decide)⟩

/-- Every division a branch of computePrices executes has a nonzero divisor
on snapshots with nonnegative fees, sellFeeRate below the Wad unit and
positive conversion factor, so the checked run returns the plain run's
value. -/
theorem priceBodyChecked_eq_some (poolState : PoolState) (to18ConversionFactor : Int)
    (isSrcDai : Bool) (side : SwapSide) (a : Int)
    (h1 : 0 ≤ poolState.tout) (h2 : 0 ≤ poolState.tin) (h3 : poolState.tin < WAD)
    (h4 : 0 < to18ConversionFactor) :
    priceBodyChecked isSrcDai to18ConversionFactor side poolState a =
      some (priceBody isSrcDai to18ConversionFactor side poolState a) := by
  have hWtout : WAD + poolState.tout ≠ 0 := ne_of_gt (by linarith [WAD_pos])
  have hWtin : WAD - poolState.tin ≠ 0 := ne_of_gt (by linarith)
  have hW : (WAD : Int) ≠ 0 := ne_of_gt WAD_pos
  have hcf : to18ConversionFactor ≠ 0 := ne_of_gt h4
  cases side <;> cases isSrcDai <;>
    simp [priceBodyChecked, priceBody, divChecked, hWtout, hWtin, hW, hcf, apply_ite] <;>
    split <;> simp_all

/-- C10 (confirmed): computePrices raises no DivisionByZero on any snapshot
with nonnegative fees, sellFeeRate strictly below 10^18 and a positive
conversion factor — every divisor is then nonzero, so the fallible run
returns exactly the total run's value; while at sellFeeRate = 10^18 the
Asset→Stable buy-side divisor W - tin is zero and the computation faults
instead of returning the zero sentinel. -/
theorem computePrices_division_safety :
    (∀ (poolState : PoolState) (to18ConversionFactor : Int) (isSrcDai : Bool)
        (side : SwapSide) (amounts : List Int),
        0 ≤ poolState.tout → 0 ≤ poolState.tin → poolState.tin < WAD →
        0 < to18ConversionFactor →
        computePricesChecked isSrcDai to18ConversionFactor side amounts poolState =
          some (computePrices isSrcDai to18ConversionFactor side amounts poolState)) ∧
    (∀ (poolState : PoolState) (to18ConversionFactor a : Int) (rest : List Int),
        poolState.tin = WAD →
        computePricesChecked false to18ConversionFactor SwapSide.BUY (a :: rest) poolState =
          none) := by
  constructor
  · intro poolState cf isSrcDai side amounts h1 h2 h3 h4
    induction amounts with
    | nil => rfl
    | cons a rest ih =>
      have hb := priceBodyChecked_eq_some poolState cf isSrcDai side a h1 h2 h3 h4
      simp only [computePricesChecked, mapOption] at ih ⊢
      rw [hb, ih]
      simp [computePrices]
  · intro poolState cf a rest htin
    have hz : WAD - poolState.tin = 0 := by rw [htin]; ring
    simp [computePricesChecked, mapOption, priceBodyChecked, divChecked, hz]

/-- C10 witness: a zero-fee snapshot prices without fault, and a snapshot
with sellFeeRate equal to the full Wad faults on the Asset→Stable buy
side. -/
theorem computePrices_division_safety_witness :
    computePricesChecked true 1 SwapSide.SELL [1] ⟨0, 0, 0, 10, 1⟩ =
      some (computePrices true 1 SwapSide.SELL [1] ⟨0, 0, 0, 10, 1⟩) ∧
    computePricesChecked false 1 SwapSide.BUY [1] ⟨WAD, 0, 0, 10, 1⟩ = none :=
  ⟨computePrices_division_safety.1 ⟨0, 0, 0, 10, 1⟩ 1 true SwapSide.SELL [1] (by decide)
      (by decide) (by decide) (by decide),
   computePrices_division_safety.2 ⟨WAD, 0, 0, 10, 1⟩ 1 1 [] rfl⟩
